import Mathlib

/-!
Verification development for the fen-to-image board renderer
(`src/fentoimage/boardgen.py`).

The Python source is shallowly embedded:
* `SquareConfig`, `TextConfig`, `Config` mirror the dataclasses;
* `PieceImage.*` mirror the glyph-provider class: the in-memory cache is an
  association list keyed by the one-character piece symbol, the on-disk cache
  and the inkscape subprocess are an explicit read-only environment (`Env`),
  and each `render` additionally reports its observable effects (disk reads,
  disk writes, process spawns) so that the caching policy is a theorem;
* `FenToImageInst.*` mirror the board renderer: drawing is embedded as a list
  of paint operations (`Op`) applied left-to-right to an initial black canvas,
  with the pixel semantics of text drawing and alpha pasting abstracted into
  an arbitrary `Oracle` (the theorems hold for every oracle).
-/

/-- RGB triple, as the `tuple[int, int, int]` colors of the source. -/
abbrev Color := Nat × Nat × Nat

/-- Abstract identifier for decoded raster image content (`PIL.Image.Image`).
Two equal identifiers stand for content-identical images. -/
abbrev Img := Nat

/-- Embeds dataclass `SquareConfig` (boardgen.py lines 11-24). -/
structure SquareConfig where
  light_color : Color := (240, 217, 181)
  dark_color : Color := (181, 136, 99)
  light_highlight_color : Color := (205, 210, 106)
  dark_highlight_color : Color := (170, 162, 58)
deriving DecidableEq

/-- Property `SquareConfig.color`: the pair `(light_color, dark_color)`. -/
def SquareConfig.color (c : SquareConfig) : Color × Color :=
  (c.light_color, c.dark_color)

/-- Property `SquareConfig.highlight_color`. -/
def SquareConfig.highlight_color (c : SquareConfig) : Color × Color :=
  (c.light_highlight_color, c.dark_highlight_color)

/-- Embeds dataclass `TextConfig` (boardgen.py lines 27-37). -/
structure TextConfig where
  enabled : Bool := true
  light_color : Color := (240, 217, 181)
  dark_color : Color := (148, 111, 81)
  font_size : Nat := 24
  padding : Nat := 8
deriving DecidableEq

/-- Property `TextConfig.color`: the pair `(light_color, dark_color)`. -/
def TextConfig.color (c : TextConfig) : Color × Color :=
  (c.light_color, c.dark_color)

/-- Embeds dataclass `Config` (boardgen.py lines 40-45). -/
structure Config where
  inkscape_location : String := "inkscape"
  piece_theme : String := "cburnett"
  square : SquareConfig := {}
  text : TextConfig := {}
deriving DecidableEq

/-- Python 2-tuple indexing `t[i]` for `i` in `{0, 1}` (parity indices). -/
def pairGet (p : Color × Color) (i : Nat) : Color :=
  if i = 0 then p.1 else p.2

/-- Piece color of the `chess.Piece` collaborator. -/
inductive PieceColor where
  | white
  | black
deriving DecidableEq, Fintype

/-- Piece kind of the `chess.Piece` collaborator. -/
inductive PieceKind where
  | pawn
  | knight
  | bishop
  | rook
  | queen
  | king
deriving DecidableEq, Fintype

/-- A piece identity: color times kind, 12 values in all. -/
structure Piece where
  color : PieceColor
  kind : PieceKind
deriving DecidableEq, Fintype

/-- Lower-case kind letter of python-chess (`p n b r q k`). -/
def PieceKind.letter : PieceKind → Char
  | .pawn => 'p'
  | .knight => 'n'
  | .bishop => 'b'
  | .rook => 'r'
  | .queen => 'q'
  | .king => 'k'

/-- `chess.Piece.symbol()`: upper-case letter for white, lower-case for black. -/
def Piece.symbol (p : Piece) : Char :=
  match p.color with
  | .white => p.kind.letter.toUpper
  | .black => p.kind.letter

/-- Embeds `PieceImage.piece_to_filename` (boardgen.py lines 66-71). -/
def Piece.piece_to_filename (piece : Piece) (extension : String) : String :=
  let psym := piece.symbol
  if psym.isLower then
    "b" ++ String.singleton psym.toUpper ++ extension
  else
    "w" ++ String.singleton psym ++ extension

/-- Result of `Popen(...).wait()` plus the process's standard output:
`returncode` as returned by `wait`, `stdout` as the decoded image when the
stream is readable (`None` otherwise). -/
structure RasterResult where
  returncode : Int
  stdout : Option Img
deriving DecidableEq

/-- Read-only external world of the glyph provider: the on-disk raster cache
(path to image, `None` when the file does not exist) and the inkscape
subprocess (svg path to process outcome; deterministic within a run). -/
structure Env where
  disk : String → Option Img
  raster : String → RasterResult

/-- Errors raised by the embedded code (`RuntimeError` messages of the source;
`themeDoesNotExist` is the `ConfigurationError` of the spec, `inkscape*` the
`RasterizationError` cases). -/
inductive GlyphError where
  | themeDoesNotExist
  | inkscapeAppError
  | inkscapeFileError
deriving DecidableEq

/-- State of a `PieceImage` instance: the fixed size and config plus the
process-lifetime memory cache `self.cache` (dict keyed by `piece.symbol()`,
embedded as an association list where a cons shadows older entries). -/
structure PieceImageState where
  size : Nat
  config : Config
  cache : List (Char × Img)
deriving DecidableEq

/-- Python `dict` lookup on the association-list embedding of `self.cache`. -/
def memLookup : List (Char × Img) → Char → Option Img
  | [], _ => none
  | (k, v) :: rest, key => if key = k then some v else memLookup rest key

/-- Disk-cache path `CACHE_LOCATION / theme / str(size) / (token ++ ".png")`
built in `get_piece_from_cache` (boardgen.py line 78). -/
def cachePath (config : Config) (size : Nat) (piece : Piece) : String :=
  "assets/cache/" ++ config.piece_theme ++ "/" ++ toString size ++ "/" ++
    piece.piece_to_filename ".png"

/-- Vector-source path `PIECE_LOCATION / theme / (token ++ ".svg")`
built in `render` (boardgen.py line 88). -/
def svgPath (config : Config) (piece : Piece) : String :=
  "assets/pieces/" ++ config.piece_theme ++ "/" ++ piece.piece_to_filename ".svg"

/-- Embeds `PieceImage.__init__` (boardgen.py lines 52-60): records the fields,
starts with an empty memory cache, and raises when the configured theme is not
among the theme-directory names (`themes` embeds the result of
`list_themes()`, the subdirectory listing of the asset root). -/
def PieceImage.construct (size : Nat) (config : Config) (themes : List String) :
    Except GlyphError PieceImageState :=
  if config.piece_theme ∈ themes then
    .ok { size := size, config := config, cache := [] }
  else
    .error .themeDoesNotExist

/-- Embeds `PieceImage.get_piece_from_cache` (boardgen.py lines 73-80).
Returns the looked-up image (if any) together with the list of disk paths
probed, so the absence of disk access on a memory hit is provable. -/
def PieceImage.get_piece_from_cache (st : PieceImageState) (env : Env)
    (piece : Piece) : Option Img × List String :=
  let psym := piece.symbol
  match memLookup st.cache psym with
  | some img => (some img, [])
  | none =>
    let filepath := cachePath st.config st.size piece
    (env.disk filepath, [filepath])

instance {ε α : Type} [DecidableEq ε] [DecidableEq α] : DecidableEq (Except ε α) := fun
  | .ok a, .ok b =>
      if h : a = b then .isTrue (by rw [h]) else
        .isFalse (fun he => by cases he; exact h rfl)
  | .ok _, .error _ => .isFalse (fun he => by cases he)
  | .error _, .ok _ => .isFalse (fun he => by cases he)
  | .error e, .error f =>
      if h : e = f then .isTrue (by rw [h]) else
        .isFalse (fun he => by cases he; exact h rfl)

/-- Observable outcome of one `PieceImage.render` call: the returned image or
raised error, the instance state afterwards, and the effect log (disk paths
read, disk paths written, number of subprocess spawns). -/
structure GlyphRenderOut where
  result : Except GlyphError Img
  state : PieceImageState
  diskReads : List String
  diskWrites : List String
  spawns : Nat
deriving DecidableEq

/-- Embeds `PieceImage.render` (boardgen.py lines 82-111): cache lookup, then
on a full miss one inkscape spawn; non-zero exit raises `inkscapeAppError`,
unreadable stdout raises `inkscapeFileError`, success stores the fresh image
in the memory cache only.  The source contains no disk write, so every path
logs `diskWrites = []`. -/
def PieceImage.render (st : PieceImageState) (env : Env) (piece : Piece) :
    GlyphRenderOut :=
  let lookup := PieceImage.get_piece_from_cache st env piece
  match lookup.1 with
  | some cached_image =>
      { result := .ok cached_image, state := st, diskReads := lookup.2,
        diskWrites := [], spawns := 0 }
  | none =>
      let filepath := svgPath st.config piece
      let proc := env.raster filepath
      if proc.returncode ≠ 0 then
        { result := .error .inkscapeAppError, state := st,
          diskReads := lookup.2, diskWrites := [], spawns := 1 }
      else
        match proc.stdout with
        | some piece_image =>
            { result := .ok piece_image,
              state := { st with cache := (piece.symbol, piece_image) :: st.cache },
              diskReads := lookup.2, diskWrites := [], spawns := 1 }
        | none =>
            { result := .error .inkscapeFileError, state := st,
              diskReads := lookup.2, diskWrites := [], spawns := 1 }

/-- The outcome of the `n`-th (0-based) of a sequence of `render` calls for
the same piece on the same instance, threading the instance state. -/
def PieceImage.renderCalls (st : PieceImageState) (env : Env) (piece : Piece) :
    Nat → GlyphRenderOut
  | 0 => PieceImage.render st env piece
  | n + 1 =>
      PieceImage.render (PieceImage.renderCalls st env piece n).state env piece

/-- Embeds `FenToImage._get_square_at` (boardgen.py lines 133-135): the linear
index into `chess.SQUARES`, which lists squares a1-first, so the index and the
square coincide. -/
def get_square_at (x y : Nat) : Nat :=
  x + (7 - y) * 8

/-- One paint operation on the canvas, as issued by the render loop:
`fillRect` is `ImageDraw.rectangle` (PIL rectangles include both corner
pixels), `text` is `ImageDraw.text` with its position, string, fill color and
anchor, `paste` is `Image.paste` of a glyph at an offset with the glyph's own
alpha mask. -/
inductive Op where
  | fillRect (x1 y1 x2 y2 : Nat) (c : Color)
  | text (pos : Nat × Nat) (str : String) (fill : Color) (anchor : String)
  | paste (img : Img) (off : Nat × Nat)
deriving DecidableEq

/-- Pixel semantics of the opaque drawing collaborators: how a text call and
an alpha paste transform the previous color of a pixel.  Arbitrary but fixed;
all theorems hold for every oracle. -/
structure Oracle where
  textEffect : (Nat × Nat) → String → Color → String → (Nat × Nat) → Color → Color
  pasteEffect : Img → (Nat × Nat) → (Nat × Nat) → Color → Color

/-- Effect of one operation on one pixel.  A `fillRect` overwrites every pixel
inside the (inclusive) rectangle and leaves the rest; `text` and `paste`
transform via the oracle. -/
def Op.apply (orc : Oracle) (op : Op) (p : Nat × Nat) (prev : Color) : Color :=
  match op with
  | .fillRect x1 y1 x2 y2 c =>
      if x1 ≤ p.1 ∧ p.1 ≤ x2 ∧ y1 ≤ p.2 ∧ p.2 ≤ y2 then c else prev
  | .text pos s f a => orc.textEffect pos s f a p prev
  | .paste img off => orc.pasteEffect img off p prev

/-- Color of a pixel after applying a list of operations left to right to an
initial canvas color. -/
def applyOps (orc : Oracle) (ops : List Op) (ini : (Nat × Nat) → Color)
    (p : Nat × Nat) : Color :=
  ops.foldl (fun acc op => Op.apply orc op p acc) (ini p)

/-- A `FenToImage` instance (boardgen.py lines 114-126): the parsed board as a
square-to-occupant query, the square size and config, the `PieceImage` memory
cache built in the constructor, plus the read-only environment and drawing
oracle. -/
structure FenToImageInst where
  board : Nat → Option Piece
  square_size : Nat
  config : Config
  glyphCache : List (Char × Img)
  env : Env
  orc : Oracle

/-- Embeds `FenToImage._render_square_background` (boardgen.py lines 137-150):
the base fill color is the parity-indexed square color, overridden by the
parity-indexed highlight color when the mapped square is highlighted. -/
def render_square_background (f : FenToImageInst) (x y : Nat)
    (highlighted_squares : List Nat) : Op :=
  let rectx := x * f.square_size
  let recty := y * f.square_size
  let colors := f.config.square.color
  let highlight_colors := f.config.square.highlight_color
  let fill_color := pairGet colors ((x + y) % 2)
  let fill_color :=
    if get_square_at x y ∈ highlighted_squares then
      pairGet highlight_colors ((x + y) % 2)
    else fill_color
  Op.fillRect rectx recty (rectx + f.square_size) (recty + f.square_size) fill_color

/-- Fill color of the file-letter label: `text_colors[x % 2]`
(boardgen.py line 165). -/
def fileLabelFill (tc : TextConfig) (x : Nat) : Color :=
  pairGet tc.color (x % 2)

/-- Fill color of the rank-digit label: `text_colors[y % 2]`
(boardgen.py line 174). -/
def rankLabelFill (tc : TextConfig) (y : Nat) : Color :=
  pairGet tc.color (y % 2)

/-- The string `"abcdefgh"` of `_render_square_location`. -/
def htext : String := "abcdefgh"

/-- The string `"87654321"` of `_render_square_location`. -/
def vtext : String := "87654321"

/-- Embeds `FenToImage._render_square_location` (boardgen.py lines 152-177):
on the bottom row the file letter anchored "ls" near the bottom-left corner,
on the right column the rank digit anchored "rt" near the top-right corner. -/
def render_square_location (f : FenToImageInst) (x y : Nat) : List Op :=
  let rectx := x * f.square_size
  let recty := y * f.square_size
  let text_padding := f.config.text.padding
  (if y = 7 then
    [Op.text (rectx + text_padding, recty + f.square_size - text_padding)
      (String.singleton (htext.toList.getD x ' '))
      (fileLabelFill f.config.text x) "ls"]
   else []) ++
  (if x = 7 then
    [Op.text (rectx + f.square_size - text_padding, recty + text_padding)
      (String.singleton (vtext.toList.getD y ' '))
      (rankLabelFill f.config.text y) "rt"]
   else [])

/-- Embeds `FenToImage._render_piece` (boardgen.py lines 179-187): query the
mapped square for an occupant; when occupied, obtain the glyph from the
`PieceImage` (threading its memory cache) and paste it at the cell's top-left
pixel offset.  A glyph-provider error propagates. -/
def render_piece (f : FenToImageInst) (cache : List (Char × Img)) (x y : Nat) :
    Except GlyphError (List Op × List (Char × Img)) :=
  let square := get_square_at x y
  match f.board square with
  | none => .ok ([], cache)
  | some piece =>
    let st : PieceImageState :=
      { size := f.square_size, config := f.config, cache := cache }
    let out := PieceImage.render st f.env piece
    match out.result with
    | .error e => .error e
    | .ok piece_image =>
        .ok ([Op.paste piece_image (x * f.square_size, y * f.square_size)],
             out.state.cache)

/-- Body of the render loop for one grid cell (boardgen.py lines 193-197):
background, then (when text is enabled) the coordinate labels, then the
occupant glyph. -/
def render_cell (f : FenToImageInst) (highlighted_squares : List Nat)
    (x y : Nat) (cache : List (Char × Img)) :
    Except GlyphError (List Op × List (Char × Img)) :=
  match render_piece f cache x y with
  | .error e => .error e
  | .ok (pieceOps, cache2) =>
      .ok ([render_square_background f x y highlighted_squares]
            ++ (if f.config.text.enabled then render_square_location f x y else [])
            ++ pieceOps,
           cache2)

/-- Folds the render loop over a list of grid cells, accumulating the emitted
paint operations and threading the glyph cache. -/
def render_cells (f : FenToImageInst) (highlighted_squares : List Nat) :
    List (Nat × Nat) → List (Char × Img) →
    Except GlyphError (List Op × List (Char × Img))
  | [], cache => .ok ([], cache)
  | (x, y) :: rest, cache =>
    match render_cell f highlighted_squares x y cache with
    | .error e => .error e
    | .ok (ops, cache2) =>
      match render_cells f highlighted_squares rest cache2 with
      | .error e => .error e
      | .ok (ops2, cache3) => .ok (ops ++ ops2, cache3)

/-- The iteration order of `FenToImage.render` (boardgen.py lines 192-193):
`x` outer 0..7, `y` inner 0..7. -/
def cellOrder : List (Nat × Nat) :=
  (List.range 8).flatMap (fun x => (List.range 8).map (fun y => (x, y)))

/-- The produced canvas: dimensions as given to `Image.new`, and the color of
each pixel. -/
structure OutImage where
  width : Nat
  height : Nat
  px : (Nat × Nat) → Color

/-- Embeds `FenToImage.render` (boardgen.py lines 128-131 and 189-199): a
fresh canvas of side `square_size * 8` starting black (`Image.new` RGB
default), over which the 64 cells' operations are applied in loop order. -/
def FenToImageInst.render (f : FenToImageInst)
    (highlighted_squares : List Nat) : Except GlyphError OutImage :=
  let size := f.square_size * 8
  match render_cells f highlighted_squares cellOrder f.glyphCache with
  | .error e => .error e
  | .ok (ops, _) =>
      .ok { width := size, height := size,
            px := applyOps f.orc ops (fun _ => (0, 0, 0)) }

/-- `Except.getD`: the value on success, a default on error. -/
def exGetD {ε α : Type} (e : Except ε α) (d : α) : α :=
  match e with
  | .ok a => a
  | .error _ => d

/-- All-zero default canvas used only as the `exGetD` fallback. -/
def dummyImage : OutImage :=
  { width := 0, height := 0, px := fun _ => (0, 0, 0) }

/-- Oracle whose text and paste calls leave pixels unchanged; used only to
instantiate theorems at concrete inputs. -/
def orcTrivial : Oracle :=
  { textEffect := fun _ _ _ _ _ prev => prev,
    pasteEffect := fun _ _ _ prev => prev }

/-- Environment with an empty disk cache and an always-succeeding rasterizer
producing image 7. -/
def envColdOk7 : Env :=
  { disk := fun _ => none, raster := fun _ => { returncode := 0, stdout := some 7 } }

/-- Environment whose disk cache holds image 5 for every path. -/
def envDiskHit5 : Env :=
  { disk := fun _ => some 5, raster := fun _ => { returncode := 1, stdout := none } }

/-- A default-config renderer instance over an empty board. -/
def fEmpty : FenToImageInst :=
  { board := fun _ => none, square_size := 128, config := {},
    glyphCache := [], env := envColdOk7, orc := orcTrivial }

/-- A renderer instance whose board has a white king on every square and whose
disk cache serves image 5. -/
def fKing : FenToImageInst :=
  { board := fun _ => some ⟨.white, .king⟩, square_size := 128, config := {},
    glyphCache := [], env := envDiskHit5, orc := orcTrivial }

/-- Glyph-provider state with an empty memory cache. -/
def stCold : PieceImageState :=
  { size := 128, config := {}, cache := [] }

/-- Glyph-provider state whose memory cache holds image 11 for the white
pawn's symbol. -/
def stMem : PieceImageState :=
  { size := 128, config := {}, cache := [(Piece.symbol ⟨.white, .pawn⟩, 11)] }

/-- Claim C1 counterexample: at grid cell (col, row) = (0, 7) with the default
configuration, the file-letter label is drawn with color
`text_colors[0 % 2] = (240, 217, 181)`, which differs from the label color
indexed by `(0 + 7) % 2`, namely `(148, 111, 81)`; so the label-color index is
not `(col + row) % 2` as the claim states. -/
theorem claim_C1_counterexample :
    render_square_location fEmpty 0 7 =
      [Op.text (8, 1016) "a" (240, 217, 181) "ls"]
    ∧ pairGet fEmpty.config.text.color ((0 + 7) % 2) = (148, 111, 81)
    ∧ ((240, 217, 181) : Color) ≠ (148, 111, 81) := by
  refine ⟨by decide, by decide, by decide⟩

/-- Claim C1 (amended): fill and highlight colors are consistently indexed by
`(col + row) % 2`, but the coordinate labels are colored by
`text_colors[col % 2]` (file letters) and `text_colors[row % 2]` (rank
digits), which on the respective label edges `row = 7` and `col = 7` is the
complement `1 - (col + row) % 2` of the square's parity index. -/
theorem claim_C1_amended (f : FenToImageInst) (hs : List Nat) (x y : Nat)
    (hx : x < 8) (hy : y < 8) :
    render_square_background f x y hs =
      Op.fillRect (x * f.square_size) (y * f.square_size)
        (x * f.square_size + f.square_size) (y * f.square_size + f.square_size)
        (pairGet (if get_square_at x y ∈ hs then f.config.square.highlight_color
                  else f.config.square.color) ((x + y) % 2))
    ∧ (y = 7 → fileLabelFill f.config.text x
        = pairGet f.config.text.color (1 - (x + y) % 2))
    ∧ (x = 7 → rankLabelFill f.config.text y
        = pairGet f.config.text.color (1 - (x + y) % 2)) := by
  refine ⟨?_, ?_, ?_⟩
  · unfold render_square_background
    by_cases hmem : get_square_at x y ∈ hs <;> simp [hmem]
  · intro h7
    subst h7
    unfold fileLabelFill
    congr 1
    omega
  · intro h7
    subst h7
    unfold rankLabelFill
    congr 1
    omega

/-- Concrete instance of `claim_C1_amended` at cell (2, 7) with the default
configuration. -/
theorem claim_C1_witness :
    render_square_background fEmpty 2 7 [] = Op.fillRect 256 896 384 1024 (181, 136, 99)
    ∧ fileLabelFill fEmpty.config.text 2 = (240, 217, 181) := by
  have h := claim_C1_amended fEmpty [] 2 7 (by decide) (by decide)
  exact ⟨h.1.trans (by decide), (h.2.1 rfl).trans (by decide)⟩

/-- Claim C3: the square rendered at grid cell (col, row) is
`col + (7 - row) * 8` in the a1-first numbering, i.e. file `col` and rank
`7 - row`; cell (0, 0) holds square 56 (a8, pixel offset (0, 0)) and cell
(0, 7) holds square 0 (a1, pixel offset (0, 7 * square_size)); the occupant
glyph is pasted at pixel offset `(col * square_size, row * square_size)`. -/
theorem claim_C3 (f : FenToImageInst) (x y : Nat) (hx : x < 8) (hy : y < 8) :
    get_square_at x y = x + (7 - y) * 8
    ∧ get_square_at x y % 8 = x
    ∧ get_square_at x y / 8 = 7 - y
    ∧ get_square_at 0 0 = 56
    ∧ get_square_at 0 7 = 0
    ∧ (∀ (cache : List (Char × Img)) (piece : Piece) (img : Img),
        f.board (get_square_at x y) = some piece →
        (PieceImage.render { size := f.square_size, config := f.config, cache := cache }
            f.env piece).result = .ok img →
        render_piece f cache x y =
          .ok ([Op.paste img (x * f.square_size, y * f.square_size)],
            (PieceImage.render { size := f.square_size, config := f.config, cache := cache }
              f.env piece).state.cache)) := by
  refine ⟨rfl, by unfold get_square_at; omega, by unfold get_square_at; omega,
    by decide, by decide, ?_⟩
  intro cache piece img hb hr
  simp [render_piece, hb, hr]

/-- Concrete instance of `claim_C3` at cell (2, 3) with a board full of white
kings served from the disk cache. -/
theorem claim_C3_witness :
    get_square_at 2 3 % 8 = 2
    ∧ get_square_at 2 3 / 8 = 4
    ∧ get_square_at 0 0 = 56
    ∧ get_square_at 0 7 = 0
    ∧ render_piece fKing [] 2 3 = .ok ([Op.paste 5 (256, 384)], []) := by
  have h := claim_C3 fKing 2 3 (by decide) (by decide)
  refine ⟨h.2.1, h.2.2.1, h.2.2.2.1, h.2.2.2.2.1, ?_⟩
  have hp := h.2.2.2.2.2 [] ⟨.white, .king⟩ 5 rfl (by decide)
  exact hp.trans (by decide)

/-- Claim C4: for positive square size, a successful render returns a canvas
of width and height exactly `8 * square_size`. -/
theorem claim_C4 (f : FenToImageInst) (hs : List Nat) (h : 0 < f.square_size)
    (hok : (FenToImageInst.render f hs).isOk = true) :
    (exGetD (FenToImageInst.render f hs) dummyImage).width = 8 * f.square_size
    ∧ (exGetD (FenToImageInst.render f hs) dummyImage).height = 8 * f.square_size := by
  unfold FenToImageInst.render at hok ⊢
  cases hr : render_cells f hs cellOrder f.glyphCache with
  | error e =>
      rw [hr] at hok
      simp [Except.isOk, Except.toBool] at hok
  | ok v =>
      obtain ⟨ops, c⟩ := v
      constructor <;> simp [exGetD] <;> omega

/-- Concrete instance of `claim_C4`: the default 128-pixel renderer over the
empty board yields a 1024 by 1024 canvas. -/
theorem claim_C4_witness :
    0 < fEmpty.square_size
    ∧ (exGetD (FenToImageInst.render fEmpty []) dummyImage).width = 1024
    ∧ (exGetD (FenToImageInst.render fEmpty []) dummyImage).height = 1024 := by
  have h := claim_C4 fEmpty [] (by decide) (by decide)
  exact ⟨by decide, h.1.trans (by decide), h.2.trans (by decide)⟩

/-- Claim C7: constructing the glyph provider fails with the theme error
exactly when the configured theme is not among the listed theme directories;
with a listed theme it succeeds (with an empty memory cache).  The
construction function consumes no rasterizer or disk environment, so the
check precedes any rendering work. -/
theorem claim_C7 (size : Nat) (config : Config) (themes : List String) :
    (config.piece_theme ∉ themes →
      PieceImage.construct size config themes = .error .themeDoesNotExist)
    ∧ (config.piece_theme ∈ themes →
      PieceImage.construct size config themes =
        .ok { size := size, config := config, cache := [] }) := by
  constructor <;> intro h <;> simp [PieceImage.construct, h]

/-- Configuration naming a theme that is not installed. -/
def configBad : Config := { piece_theme := "nonexistent" }

/-- Concrete instance of `claim_C7` with theme list ["cburnett", "merida"]. -/
theorem claim_C7_witness :
    PieceImage.construct 128 configBad ["cburnett", "merida"] = .error .themeDoesNotExist
    ∧ PieceImage.construct 128 {} ["cburnett", "merida"] =
        .ok { size := 128, config := {}, cache := [] } := by
  exact ⟨(claim_C7 128 configBad ["cburnett", "merida"]).1 (by decide),
         (claim_C7 128 {} ["cburnett", "merida"]).2 (by decide)⟩

/-- Claim C10: the memory cache is keyed by the one-character piece symbol;
this key is injective over the 12 piece identities, a stored entry is found
again under exactly its own key, entries of other pieces do not shadow it,
and the two-character filename token is a different, longer string. -/
theorem claim_C10 :
    (∀ p q : Piece, Piece.symbol p = Piece.symbol q → p = q)
    ∧ (∀ (p : Piece) (img : Img) (cache : List (Char × Img)),
        memLookup ((Piece.symbol p, img) :: cache) (Piece.symbol p) = some img)
    ∧ (∀ (p q : Piece) (img : Img) (cache : List (Char × Img)), p ≠ q →
        memLookup ((Piece.symbol q, img) :: cache) (Piece.symbol p)
          = memLookup cache (Piece.symbol p))
    ∧ (∀ p : Piece, (Piece.piece_to_filename p "").length = 2) := by
  have hinj : ∀ p q : Piece, Piece.symbol p = Piece.symbol q → p = q := by decide
  refine ⟨hinj, ?_, ?_, by decide⟩
  · intro p img cache
    simp [memLookup]
  · intro p q img cache hne
    have hsym : Piece.symbol p ≠ Piece.symbol q := fun hsy => hne (hinj p q hsy)
    simp [memLookup, hsym]

/-- Concrete instance of `claim_C10`: white pawn and black pawn have distinct
memory-cache keys and do not shadow each other's entries. -/
theorem claim_C10_witness :
    memLookup [(Piece.symbol ⟨.white, .pawn⟩, 3)] (Piece.symbol ⟨.white, .pawn⟩) = some 3
    ∧ memLookup [(Piece.symbol ⟨.black, .pawn⟩, 4)] (Piece.symbol ⟨.white, .pawn⟩)
        = memLookup [] (Piece.symbol ⟨.white, .pawn⟩)
    ∧ (⟨.white, .pawn⟩ : Piece) ≠ ⟨.black, .pawn⟩ := by
  obtain ⟨h1, h2, h3, h4⟩ := claim_C10
  exact ⟨h2 ⟨.white, .pawn⟩ 3 [], h3 ⟨.white, .pawn⟩ ⟨.black, .pawn⟩ 4 [] (by decide),
    by decide⟩

/-- Helper: each single `render` call spawns at most one process. -/
lemma glyph_render_spawns_le (st : PieceImageState) (env : Env) (piece : Piece) :
    (PieceImage.render st env piece).spawns ≤ 1 := by
  cases hmem : memLookup st.cache piece.symbol with
  | some i => simp [PieceImage.render, PieceImage.get_piece_from_cache, hmem]
  | none =>
    cases hdisk : env.disk (cachePath st.config st.size piece) with
    | some i => simp [PieceImage.render, PieceImage.get_piece_from_cache, hmem, hdisk]
    | none =>
      by_cases hrc : (env.raster (svgPath st.config piece)).returncode = 0
      · cases hsd : (env.raster (svgPath st.config piece)).stdout with
        | some i =>
            simp [PieceImage.render, PieceImage.get_piece_from_cache, hmem, hdisk, hrc, hsd]
        | none =>
            simp [PieceImage.render, PieceImage.get_piece_from_cache, hmem, hdisk, hrc, hsd]
      · simp [PieceImage.render, PieceImage.get_piece_from_cache, hmem, hdisk, hrc]

/-- Helper: a `render` call spawns a process exactly when both the memory
cache and the disk cache miss. -/
lemma glyph_render_spawn_iff (st : PieceImageState) (env : Env) (piece : Piece) :
    (PieceImage.render st env piece).spawns = 1 ↔
      (memLookup st.cache piece.symbol = none
       ∧ env.disk (cachePath st.config st.size piece) = none) := by
  cases hmem : memLookup st.cache piece.symbol with
  | some i => simp [PieceImage.render, PieceImage.get_piece_from_cache, hmem]
  | none =>
    cases hdisk : env.disk (cachePath st.config st.size piece) with
    | some i => simp [PieceImage.render, PieceImage.get_piece_from_cache, hmem, hdisk]
    | none =>
      by_cases hrc : (env.raster (svgPath st.config piece)).returncode = 0
      · cases hsd : (env.raster (svgPath st.config piece)).stdout with
        | some i =>
            simp [PieceImage.render, PieceImage.get_piece_from_cache, hmem, hdisk, hrc, hsd]
        | none =>
            simp [PieceImage.render, PieceImage.get_piece_from_cache, hmem, hdisk, hrc, hsd]
      · simp [PieceImage.render, PieceImage.get_piece_from_cache, hmem, hdisk, hrc]

/-- Helper: once a `render` call has returned an image, rendering the same
piece again from the resulting state returns the same image, changes nothing,
and spawns no process. -/
lemma glyph_render_stable (st : PieceImageState) (env : Env) (piece : Piece) (img : Img)
    (h : (PieceImage.render st env piece).result = .ok img) :
    (PieceImage.render (PieceImage.render st env piece).state env piece).result = .ok img
    ∧ (PieceImage.render (PieceImage.render st env piece).state env piece).state
        = (PieceImage.render st env piece).state
    ∧ (PieceImage.render (PieceImage.render st env piece).state env piece).spawns = 0 := by
  cases hmem : memLookup st.cache piece.symbol with
  | some i =>
    have he : PieceImage.render st env piece =
        { result := .ok i, state := st, diskReads := [], diskWrites := [], spawns := 0 } := by
      simp [PieceImage.render, PieceImage.get_piece_from_cache, hmem]
    rw [he] at h ⊢
    simp only [Except.ok.injEq] at h
    subst h
    simp [PieceImage.render, PieceImage.get_piece_from_cache, hmem]
  | none =>
    cases hdisk : env.disk (cachePath st.config st.size piece) with
    | some i =>
      have he : PieceImage.render st env piece =
          { result := .ok i, state := st,
            diskReads := [cachePath st.config st.size piece],
            diskWrites := [], spawns := 0 } := by
        simp [PieceImage.render, PieceImage.get_piece_from_cache, hmem, hdisk]
      rw [he] at h ⊢
      simp only [Except.ok.injEq] at h
      subst h
      simp [PieceImage.render, PieceImage.get_piece_from_cache, hmem, hdisk]
    | none =>
      by_cases hrc : (env.raster (svgPath st.config piece)).returncode = 0
      · cases hsd : (env.raster (svgPath st.config piece)).stdout with
        | some i =>
          have he : PieceImage.render st env piece =
              { result := .ok i,
                state := { st with cache := (piece.symbol, i) :: st.cache },
                diskReads := [cachePath st.config st.size piece],
                diskWrites := [], spawns := 1 } := by
            simp [PieceImage.render, PieceImage.get_piece_from_cache, hmem, hdisk, hrc, hsd]
          rw [he] at h ⊢
          simp only [Except.ok.injEq] at h
          subst h
          simp [PieceImage.render, PieceImage.get_piece_from_cache, memLookup]
        | none =>
          have he : (PieceImage.render st env piece).result = .error .inkscapeFileError := by
            simp [PieceImage.render, PieceImage.get_piece_from_cache, hmem, hdisk, hrc, hsd]
          rw [he] at h
          cases h
      · have he : (PieceImage.render st env piece).result = .error .inkscapeAppError := by
          simp [PieceImage.render, PieceImage.get_piece_from_cache, hmem, hdisk, hrc]
        rw [he] at h
        cases h

/-- Claim C2: the two-tier cache policy of `PieceImage.render`.  A memory hit
returns the cached image with no disk read and no spawn, independently of the
environment; a memory miss with a disk hit returns the disk image without
promoting it into the memory cache; a full miss rasterizes once and stores
the fresh image in the memory cache only, writing nothing to disk. -/
theorem claim_C2 (st : PieceImageState) (env : Env) (piece : Piece) :
    (∀ img, memLookup st.cache piece.symbol = some img →
      ∀ env2 : Env, PieceImage.render st env2 piece =
        { result := .ok img, state := st, diskReads := [], diskWrites := [],
          spawns := 0 })
    ∧ (memLookup st.cache piece.symbol = none →
       ∀ img, env.disk (cachePath st.config st.size piece) = some img →
        PieceImage.render st env piece =
          { result := .ok img, state := st,
            diskReads := [cachePath st.config st.size piece],
            diskWrites := [], spawns := 0 })
    ∧ (memLookup st.cache piece.symbol = none →
       env.disk (cachePath st.config st.size piece) = none →
       ∀ img, (env.raster (svgPath st.config piece)).returncode = 0 →
         (env.raster (svgPath st.config piece)).stdout = some img →
        PieceImage.render st env piece =
          { result := .ok img,
            state := { st with cache := (piece.symbol, img) :: st.cache },
            diskReads := [cachePath st.config st.size piece],
            diskWrites := [], spawns := 1 }) := by
  refine ⟨?_, ?_, ?_⟩
  · intro img hmem env2
    simp [PieceImage.render, PieceImage.get_piece_from_cache, hmem]
  · intro hmem img hdisk
    simp [PieceImage.render, PieceImage.get_piece_from_cache, hmem, hdisk]
  · intro hmem hdisk img hrc hsd
    simp [PieceImage.render, PieceImage.get_piece_from_cache, hmem, hdisk, hrc, hsd]

/-- Concrete instance of `claim_C2`: a memory hit, a non-promoted disk hit,
and a memory-only store on a full miss, for the white pawn. -/
theorem claim_C2_witness :
    PieceImage.render stMem envDiskHit5 ⟨.white, .pawn⟩ =
      { result := .ok 11, state := stMem, diskReads := [], diskWrites := [],
        spawns := 0 }
    ∧ PieceImage.render stCold envDiskHit5 ⟨.white, .pawn⟩ =
      { result := .ok 5, state := stCold,
        diskReads := [cachePath stCold.config stCold.size ⟨.white, .pawn⟩],
        diskWrites := [], spawns := 0 }
    ∧ PieceImage.render stCold envColdOk7 ⟨.white, .pawn⟩ =
      { result := .ok 7,
        state := { stCold with cache := [(Piece.symbol ⟨.white, .pawn⟩, 7)] },
        diskReads := [cachePath stCold.config stCold.size ⟨.white, .pawn⟩],
        diskWrites := [], spawns := 1 } := by
  refine ⟨(claim_C2 stMem envDiskHit5 ⟨.white, .pawn⟩).1 11 (by decide) envDiskHit5,
    (claim_C2 stCold envDiskHit5 ⟨.white, .pawn⟩).2.1 (by decide) 5 rfl, ?_⟩
  exact (claim_C2 stCold envColdOk7 ⟨.white, .pawn⟩).2.2 (by decide) rfl 7 rfl rfl

/-- Claim C5: repeated `render` calls for the same piece on the same instance
return the same image on every call; no call after the first spawns the
rasterizer, each call spawns at most once, and the first call spawns exactly
when both caches are cold. -/
theorem claim_C5 (st : PieceImageState) (env : Env) (piece : Piece) (img : Img)
    (h0 : (PieceImage.renderCalls st env piece 0).result = .ok img) :
    (∀ n, (PieceImage.renderCalls st env piece n).result = .ok img)
    ∧ (∀ n, 1 ≤ n → (PieceImage.renderCalls st env piece n).spawns = 0)
    ∧ (∀ n, (PieceImage.renderCalls st env piece n).spawns ≤ 1)
    ∧ ((PieceImage.renderCalls st env piece 0).spawns = 1 ↔
        (memLookup st.cache piece.symbol = none
         ∧ env.disk (cachePath st.config st.size piece) = none)) := by
  have key : ∀ n, (PieceImage.renderCalls st env piece n).result = .ok img
      ∧ (PieceImage.renderCalls st env piece n).state
          = (PieceImage.renderCalls st env piece 0).state
      ∧ (1 ≤ n → (PieceImage.renderCalls st env piece n).spawns = 0) := by
    intro n
    induction n with
    | zero => exact ⟨h0, rfl, by omega⟩
    | succ k ih =>
      have hst : PieceImage.renderCalls st env piece (k + 1)
          = PieceImage.render (PieceImage.renderCalls st env piece k).state env piece := rfl
      have hs := glyph_render_stable st env piece img h0
      rw [hst, ih.2.1]
      exact ⟨hs.1, hs.2.1, fun _ => hs.2.2⟩
  refine ⟨fun n => (key n).1, fun n hn => (key n).2.2 hn, ?_, ?_⟩
  · intro n
    cases n with
    | zero => exact glyph_render_spawns_le st env piece
    | succ k =>
        have := (key (k + 1)).2.2 (by omega)
        omega
  · exact glyph_render_spawn_iff st env piece

/-- Concrete instance of `claim_C5`: from cold caches, the first call
rasterizes (one spawn) and the second call returns the identical image from
the memory cache with no spawn. -/
theorem claim_C5_witness :
    (PieceImage.renderCalls stCold envColdOk7 ⟨.white, .pawn⟩ 0).result = .ok 7
    ∧ (PieceImage.renderCalls stCold envColdOk7 ⟨.white, .pawn⟩ 1).result = .ok 7
    ∧ (PieceImage.renderCalls stCold envColdOk7 ⟨.white, .pawn⟩ 1).spawns = 0
    ∧ (PieceImage.renderCalls stCold envColdOk7 ⟨.white, .pawn⟩ 0).spawns = 1 := by
  have h := claim_C5 stCold envColdOk7 ⟨.white, .pawn⟩ 7 (by decide)
  exact ⟨h.1 0, h.1 1, h.2.1 1 (by omega), h.2.2.2.mpr ⟨rfl, rfl⟩⟩

/-- Claim C6: on a full cache miss, a non-zero rasterizer exit raises the
process error and a zero exit with unreadable stdout raises the output error;
in both cases the memory cache is unchanged and nothing is written to disk. -/
theorem claim_C6 (st : PieceImageState) (env : Env) (piece : Piece)
    (hmem : memLookup st.cache piece.symbol = none)
    (hdisk : env.disk (cachePath st.config st.size piece) = none) :
    ((env.raster (svgPath st.config piece)).returncode ≠ 0 →
      PieceImage.render st env piece =
        { result := .error .inkscapeAppError, state := st,
          diskReads := [cachePath st.config st.size piece],
          diskWrites := [], spawns := 1 })
    ∧ ((env.raster (svgPath st.config piece)).returncode = 0 →
       (env.raster (svgPath st.config piece)).stdout = none →
      PieceImage.render st env piece =
        { result := .error .inkscapeFileError, state := st,
          diskReads := [cachePath st.config st.size piece],
          diskWrites := [], spawns := 1 }) := by
  constructor
  · intro hrc
    simp [PieceImage.render, PieceImage.get_piece_from_cache, hmem, hdisk, hrc]
  · intro hrc hsd
    simp [PieceImage.render, PieceImage.get_piece_from_cache, hmem, hdisk, hrc, hsd]

/-- Environment whose rasterizer exits with status 1. -/
def envFail : Env :=
  { disk := fun _ => none, raster := fun _ => { returncode := 1, stdout := some 9 } }

/-- Environment whose rasterizer exits 0 but yields no readable stdout. -/
def envNoOut : Env :=
  { disk := fun _ => none, raster := fun _ => { returncode := 0, stdout := none } }

/-- Concrete instance of `claim_C6` for the white pawn on cold caches. -/
theorem claim_C6_witness :
    PieceImage.render stCold envFail ⟨.white, .pawn⟩ =
      { result := .error .inkscapeAppError, state := stCold,
        diskReads := [cachePath stCold.config stCold.size ⟨.white, .pawn⟩],
        diskWrites := [], spawns := 1 }
    ∧ PieceImage.render stCold envNoOut ⟨.white, .pawn⟩ =
      { result := .error .inkscapeFileError, state := stCold,
        diskReads := [cachePath stCold.config stCold.size ⟨.white, .pawn⟩],
        diskWrites := [], spawns := 1 } := by
  exact ⟨(claim_C6 stCold envFail ⟨.white, .pawn⟩ (by decide) rfl).1 (by decide),
         (claim_C6 stCold envNoOut ⟨.white, .pawn⟩ (by decide) rfl).2 rfl rfl⟩

/-- Helper: inversion of an `Except.ok` of a pair. -/
lemma exceptPairInv {ε α β : Type} {a1 a2 : α} {b1 b2 : β}
    (h : (Except.ok (a1, b1) : Except ε (α × β)) = .ok (a2, b2)) :
    a1 = a2 ∧ b1 = b2 := by
  injection h with h1
  exact ⟨congrArg Prod.fst h1, congrArg Prod.snd h1⟩

/-- Helper: equation of `render_square_background` with the branch exposed. -/
lemma render_square_background_eq (f : FenToImageInst) (x y : Nat)
    (hs : List Nat) :
    render_square_background f x y hs =
      Op.fillRect (x * f.square_size) (y * f.square_size)
        (x * f.square_size + f.square_size) (y * f.square_size + f.square_size)
        (if get_square_at x y ∈ hs then
           pairGet f.config.square.highlight_color ((x + y) % 2)
         else pairGet f.config.square.color ((x + y) % 2)) := by
  unfold render_square_background
  by_cases hmem : get_square_at x y ∈ hs <;> simp [hmem]

/-- Helper: `render_piece` on an empty square emits nothing. -/
lemma render_piece_none (f : FenToImageInst) (cache : List (Char × Img))
    (x y : Nat) (hb : f.board (get_square_at x y) = none) :
    render_piece f cache x y = .ok ([], cache) := by
  simp [render_piece, hb]

/-- Helper: `render_piece` on an occupied square with a successful glyph
lookup emits one paste at the cell's pixel offset. -/
lemma render_piece_some_ok (f : FenToImageInst) (cache : List (Char × Img))
    (x y : Nat) (piece : Piece) (img : Img)
    (hb : f.board (get_square_at x y) = some piece)
    (hr : (PieceImage.render
      { size := f.square_size, config := f.config, cache := cache }
      f.env piece).result = .ok img) :
    render_piece f cache x y =
      .ok ([Op.paste img (x * f.square_size, y * f.square_size)],
        (PieceImage.render
          { size := f.square_size, config := f.config, cache := cache }
          f.env piece).state.cache) := by
  simp [render_piece, hb, hr]

/-- Helper: a failing glyph lookup propagates out of `render_piece`. -/
lemma render_piece_some_err (f : FenToImageInst) (cache : List (Char × Img))
    (x y : Nat) (piece : Piece) (e : GlyphError)
    (hb : f.board (get_square_at x y) = some piece)
    (hr : (PieceImage.render
      { size := f.square_size, config := f.config, cache := cache }
      f.env piece).result = .error e) :
    render_piece f cache x y = .error e := by
  simp [render_piece, hb, hr]

/-- Helper: the operations emitted by `render_piece` are nothing or a single
paste. -/
lemma render_piece_shape (f : FenToImageInst) (cache : List (Char × Img))
    (x y : Nat) (ops : List Op) (cache2 : List (Char × Img))
    (h : render_piece f cache x y = .ok (ops, cache2)) :
    ops = [] ∨ ∃ img off, ops = [Op.paste img off] := by
  cases hb : f.board (get_square_at x y) with
  | none =>
      rw [render_piece_none f cache x y hb] at h
      exact Or.inl (exceptPairInv h).1.symm
  | some piece =>
      cases hres : (PieceImage.render
          { size := f.square_size, config := f.config, cache := cache }
          f.env piece).result with
      | error e =>
          rw [render_piece_some_err f cache x y piece e hb hres] at h
          exact Except.noConfusion h
      | ok i =>
          rw [render_piece_some_ok f cache x y piece i hb hres] at h
          exact Or.inr ⟨i, (x * f.square_size, y * f.square_size),
            (exceptPairInv h).1.symm⟩

/-- Helper: composing one cell's result with the rest of the loop. -/
lemma render_cells_cons_ok (f : FenToImageInst) (hs : List Nat) (a b : Nat)
    (rest : List (Nat × Nat)) (cache ops1 : _) (cacheM : List (Char × Img))
    (ops2 : List Op) (cacheE : List (Char × Img))
    (h1 : render_cell f hs a b cache = .ok (ops1, cacheM))
    (h2 : render_cells f hs rest cacheM = .ok (ops2, cacheE)) :
    render_cells f hs ((a, b) :: rest) cache = .ok (ops1 ++ ops2, cacheE) := by
  simp [render_cells, h1, h2]

/-- Helper: inversion of a successful loop step. -/
lemma render_cells_cons_inv (f : FenToImageInst) (hs : List Nat) (a b : Nat)
    (rest : List (Nat × Nat)) (cache : List (Char × Img)) (ops : List Op)
    (cache2 : List (Char × Img))
    (h : render_cells f hs ((a, b) :: rest) cache = .ok (ops, cache2)) :
    ∃ ops1 cacheM ops2, render_cell f hs a b cache = .ok (ops1, cacheM)
      ∧ render_cells f hs rest cacheM = .ok (ops2, cache2)
      ∧ ops = ops1 ++ ops2 := by
  cases hcell : render_cell f hs a b cache with
  | error e =>
      rw [render_cells, hcell] at h
      exact Except.noConfusion h
  | ok v =>
      obtain ⟨ops1, cacheM⟩ := v
      cases hrest : render_cells f hs rest cacheM with
      | error e =>
          rw [render_cells, hcell] at h
          simp only [hrest] at h
          exact Except.noConfusion h
      | ok w =>
          obtain ⟨ops2, cacheE⟩ := w
          rw [render_cells_cons_ok f hs a b rest cache ops1 cacheM ops2 cacheE
            hcell hrest] at h
          obtain ⟨hops, hcache⟩ := exceptPairInv h
          exact ⟨ops1, cacheM, ops2, rfl, hcache ▸ hrest, hops.symm⟩

/-- Helper: inversion of a successful cell. -/
lemma render_cell_inv (f : FenToImageInst) (hs : List Nat) (a b : Nat)
    (cache : List (Char × Img)) (ops : List Op) (cache2 : List (Char × Img))
    (h : render_cell f hs a b cache = .ok (ops, cache2)) :
    ∃ pOps, render_piece f cache a b = .ok (pOps, cache2)
      ∧ ops = render_square_background f a b hs
          :: ((if f.config.text.enabled then render_square_location f a b else [])
              ++ pOps) := by
  cases hpc : render_piece f cache a b with
  | error e =>
      rw [render_cell, hpc] at h
      exact Except.noConfusion h
  | ok u =>
      obtain ⟨pOps, cacheP⟩ := u
      rw [render_cell, hpc] at h
      obtain ⟨hops, hcache⟩ := exceptPairInv h
      exact ⟨pOps, by rw [hcache], by rw [← hops]; simp⟩

/-- Helper: every operation emitted by `render_square_location` is a text
operation. -/
lemma render_square_location_shape (f : FenToImageInst) (x y : Nat) :
    ∀ op ∈ render_square_location f x y,
      ∃ pos s fill a, op = Op.text pos s fill a := by
  intro op hop
  unfold render_square_location at hop
  rw [List.mem_append] at hop
  rcases hop with hop | hop
  · by_cases h7 : y = 7
    · rw [if_pos h7, List.mem_singleton] at hop
      exact ⟨_, _, _, _, hop⟩
    · rw [if_neg h7] at hop
      cases hop
  · by_cases h7 : x = 7
    · rw [if_pos h7, List.mem_singleton] at hop
      exact ⟨_, _, _, _, hop⟩
    · rw [if_neg h7] at hop
      cases hop

/-- Helper: with an empty highlight list, every rectangle fill emitted over
any cell list carries one of the two plain square colors. -/
lemma render_cells_fill_colors (f : FenToImageInst) :
    ∀ (L : List (Nat × Nat)) (cache : List (Char × Img)) (ops : List Op)
      (cache2 : List (Char × Img)),
      render_cells f [] L cache = .ok (ops, cache2) →
      ∀ op ∈ ops, ∀ x1 y1 x2 y2 c, op = Op.fillRect x1 y1 x2 y2 c →
        c = f.config.square.light_color ∨ c = f.config.square.dark_color := by
  intro L
  induction L with
  | nil =>
      intro cache ops cache2 h op hop hx1
      rw [render_cells] at h
      rw [← (exceptPairInv h).1] at hop
      cases hop
  | cons cell rest ih =>
      obtain ⟨a, b⟩ := cell
      intro cache ops cache2 h op hop x1 y1 x2 y2 c hc
      obtain ⟨ops1, cacheM, ops2, hcell, hrest, hsplit⟩ :=
        render_cells_cons_inv f [] a b rest cache ops cache2 h
      rw [hsplit, List.mem_append] at hop
      rcases hop with hop | hop
      · obtain ⟨pOps, hpc, hshape⟩ := render_cell_inv f [] a b cache ops1 cacheM hcell
        rw [hshape] at hop
        simp only [List.mem_cons, List.mem_append] at hop
        rcases hop with hop | hop | hop
        · rw [hop, render_square_background_eq] at hc
          simp only [List.not_mem_nil, if_false, Op.fillRect.injEq] at hc
          rw [← hc.2.2.2.2]
          unfold pairGet SquareConfig.color
          by_cases hpar : (a + b) % 2 = 0
          · rw [if_pos hpar]
            exact Or.inl rfl
          · rw [if_neg hpar]
            exact Or.inr rfl
        · rcases hen : f.config.text.enabled with _ | _
          · rw [hen] at hop
            simp at hop
          · rw [hen] at hop
            simp only [if_true] at hop
            obtain ⟨pos, s, fill, anch, htx⟩ :=
              render_square_location_shape f a b op hop
            rw [htx] at hc
            cases hc
        · rcases render_piece_shape f cache a b pOps cacheM hpc with
            hnil | ⟨img, off, hps⟩
          · rw [hnil] at hop
            cases hop
          · rw [hps, List.mem_singleton] at hop
            rw [hop] at hc
            cases hc
      · exact ih cacheM ops2 cache2 hrest op hop x1 y1 x2 y2 c hc

/-- Claim C8: a cell's rectangle is filled with the parity-indexed fill color
unless its mapped square is highlighted, in which case the parity-indexed
highlight color is used; with an empty highlight list every emitted rectangle
fill over the whole board carries one of the two plain fill colors, so no
highlight color is ever selected. -/
theorem claim_C8 (f : FenToImageInst) (hs : List Nat) (x y : Nat)
    (hx : x < 8) (hy : y < 8) :
    (get_square_at x y ∈ hs →
      render_square_background f x y hs =
        Op.fillRect (x * f.square_size) (y * f.square_size)
          (x * f.square_size + f.square_size) (y * f.square_size + f.square_size)
          (pairGet f.config.square.highlight_color ((x + y) % 2)))
    ∧ (get_square_at x y ∉ hs →
      render_square_background f x y hs =
        Op.fillRect (x * f.square_size) (y * f.square_size)
          (x * f.square_size + f.square_size) (y * f.square_size + f.square_size)
          (pairGet f.config.square.color ((x + y) % 2)))
    ∧ (∀ ops cache2, render_cells f [] cellOrder f.glyphCache = .ok (ops, cache2) →
        ∀ op ∈ ops, ∀ x1 y1 x2 y2 c, op = Op.fillRect x1 y1 x2 y2 c →
          c = f.config.square.light_color ∨ c = f.config.square.dark_color) := by
  refine ⟨?_, ?_, ?_⟩
  · intro hmem
    rw [render_square_background_eq, if_pos hmem]
  · intro hmem
    rw [render_square_background_eq, if_neg hmem]
  · intro ops cache2 h
    exact render_cells_fill_colors f cellOrder f.glyphCache ops cache2 h

/-- Concrete instance of `claim_C8` at cell (0, 0) with the default
configuration: with square 56 (= a8, the square at that cell) highlighted the
light highlight color is used, with nothing highlighted the light fill color
is used. -/
theorem claim_C8_witness :
    render_square_background fEmpty 0 0 [56] = Op.fillRect 0 0 128 128 (205, 210, 106)
    ∧ render_square_background fEmpty 0 0 [] = Op.fillRect 0 0 128 128 (240, 217, 181) := by
  have h1 := claim_C8 fEmpty [56] 0 0 (by decide) (by decide)
  have h2 := claim_C8 fEmpty [] 0 0 (by decide) (by decide)
  exact ⟨(h1.1 (by decide)).trans (by decide), (h2.2.1 (by decide)).trans (by decide)⟩

/-- Helper: the cell-to-square map is injective on the 8 by 8 grid. -/
lemma get_square_at_inj (a b x0 y0 : Nat) (ha : a < 8) (hb : b < 8)
    (hx0 : x0 < 8) (hy0 : y0 < 8)
    (h : get_square_at a b = get_square_at x0 y0) : a = x0 ∧ b = y0 := by
  unfold get_square_at at h
  omega

/-- Helper: a pixel strictly inside an inclusive fill rectangle receives its
color, whatever was there before. -/
lemma fillRect_apply_in (orc : Oracle) (x1 y1 x2 y2 : Nat) (c : Color)
    (p : Nat × Nat) (h : x1 ≤ p.1 ∧ p.1 ≤ x2 ∧ y1 ≤ p.2 ∧ p.2 ≤ y2)
    (v : Color) :
    Op.apply orc (Op.fillRect x1 y1 x2 y2 c) p v = c := by
  simp [Op.apply, h]

/-- Helper: a fill rectangle leaves pixels outside it unchanged. -/
lemma fillRect_apply_out (orc : Oracle) (x1 y1 x2 y2 : Nat) (c : Color)
    (p : Nat × Nat) (h : ¬(x1 ≤ p.1 ∧ p.1 ≤ x2 ∧ y1 ≤ p.2 ∧ p.2 ≤ y2))
    (v : Color) :
    Op.apply orc (Op.fillRect x1 y1 x2 y2 c) p v = v := by
  simp [Op.apply, h]

/-- Helper: folding a list that contains an operation acting as a constant at
pixel `p` gives the same color from any two starting colors. -/
lemma foldl_ops_eq_of_const_mem (orc : Oracle) (p : Nat × Nat)
    (l pre post : List Op) (o : Op) (hl : l = pre ++ o :: post)
    (hconst : ∀ v w, Op.apply orc o p v = Op.apply orc o p w) (a b : Color) :
    l.foldl (fun acc op => Op.apply orc op p acc) a
      = l.foldl (fun acc op => Op.apply orc op p acc) b := by
  subst hl
  rw [List.foldl_append, List.foldl_append, List.foldl_cons, List.foldl_cons]
  exact congrArg
    (fun x => List.foldl (fun acc op => Op.apply orc op p acc) x post)
    (hconst _ _)

/-- Helper: cells other than the highlighted one render identically whether
the single square `get_square_at x0 y0` is highlighted or nothing is. -/
lemma render_cells_hs_eq (f : FenToImageInst) (x0 y0 : Nat)
    (hx0 : x0 < 8) (hy0 : y0 < 8) :
    ∀ (L : List (Nat × Nat)), (∀ c ∈ L, c.1 < 8 ∧ c.2 < 8) → (x0, y0) ∉ L →
    ∀ cache, render_cells f [get_square_at x0 y0] L cache
      = render_cells f [] L cache := by
  intro L
  induction L with
  | nil => intro _ _ cache; rfl
  | cons cell rest ih =>
      obtain ⟨a, b⟩ := cell
      intro hbnd hnm cache
      have hab : a < 8 ∧ b < 8 := hbnd (a, b) (List.mem_cons_self _ _)
      have hne : ¬(a = x0 ∧ b = y0) := by
        intro hand
        exact hnm (by rw [hand.1, hand.2]; exact List.mem_cons_self _ _)
      have hbg : render_square_background f a b [get_square_at x0 y0]
          = render_square_background f a b [] := by
        rw [render_square_background_eq, render_square_background_eq]
        have hmem : get_square_at a b ∉ [get_square_at x0 y0] := by
          rw [List.mem_singleton]
          intro heq
          exact hne (get_square_at_inj a b x0 y0 hab.1 hab.2 hx0 hy0 heq)
        rw [if_neg hmem, if_neg (List.not_mem_nil _)]
      have hcell : render_cell f [get_square_at x0 y0] a b cache
          = render_cell f [] a b cache := by
        simp only [render_cell, hbg]
      have hrest_bnd : ∀ c ∈ rest, c.1 < 8 ∧ c.2 < 8 :=
        fun c hc2 => hbnd c (List.mem_cons_of_mem _ hc2)
      have hrest_nm : (x0, y0) ∉ rest :=
        fun hc2 => hnm (List.mem_cons_of_mem _ hc2)
      rw [render_cells, render_cells, hcell]
      simp only [ih hrest_bnd hrest_nm]

/-- Helper: inversion of a successful loop over a concatenation of cells. -/
lemma render_cells_append_inv (f : FenToImageInst) (hs : List Nat) :
    ∀ (L1 L2 : List (Nat × Nat)) (cache : List (Char × Img)) (ops : List Op)
      (cache2 : List (Char × Img)),
      render_cells f hs (L1 ++ L2) cache = .ok (ops, cache2) →
      ∃ ops1 cacheM ops2, render_cells f hs L1 cache = .ok (ops1, cacheM)
        ∧ render_cells f hs L2 cacheM = .ok (ops2, cache2)
        ∧ ops = ops1 ++ ops2 := by
  intro L1
  induction L1 with
  | nil =>
      intro L2 cache ops cache2 h
      exact ⟨[], cache, ops, rfl, h, rfl⟩
  | cons cell rest ih =>
      obtain ⟨a, b⟩ := cell
      intro L2 cache ops cache2 h
      rw [List.cons_append] at h
      obtain ⟨opsC, cacheM, opsR, hcell, hrest, hsplit⟩ :=
        render_cells_cons_inv f hs a b (rest ++ L2) cache ops cache2 h
      obtain ⟨ops1, cacheM2, ops2, hr1, hr2, hsp2⟩ := ih L2 cacheM opsR cache2 hrest
      refine ⟨opsC ++ ops1, cacheM2, ops2,
        render_cells_cons_ok f hs a b rest cache opsC cacheM ops1 cacheM2 hcell hr1,
        hr2, ?_⟩
      rw [hsplit, hsp2, List.append_assoc]

/-- Helper: the background fill of any visited cell occurs in the emitted
operation list. -/
lemma render_cells_bg_mem (f : FenToImageInst) (hs : List Nat) :
    ∀ (L : List (Nat × Nat)) (cache : List (Char × Img)) (ops : List Op)
      (cache2 : List (Char × Img)) (a b : Nat),
      (a, b) ∈ L → render_cells f hs L cache = .ok (ops, cache2) →
      ∃ pre post, ops = pre ++ render_square_background f a b hs :: post := by
  intro L
  induction L with
  | nil =>
      intro cache ops cache2 a b hm
      cases hm
  | cons cell rest ih =>
      obtain ⟨u, w⟩ := cell
      intro cache ops cache2 a b hm h
      obtain ⟨opsC, cacheM, opsR, hcell, hrest, hsplit⟩ :=
        render_cells_cons_inv f hs u w rest cache ops cache2 h
      rcases List.mem_cons.mp hm with heq | hm2
      · have ha : a = u := congrArg Prod.fst heq
        have hb : b = w := congrArg Prod.snd heq
        subst ha
        subst hb
        obtain ⟨pOps, hp, hshape⟩ := render_cell_inv f hs a b cache opsC cacheM hcell
        refine ⟨[],
          ((if f.config.text.enabled then render_square_location f a b else [])
            ++ pOps) ++ opsR, ?_⟩
        rw [hsplit, hshape]
        simp [List.cons_append, List.append_assoc]
      · obtain ⟨pre, post, hdec⟩ := ih cacheM opsR cache2 a b hm2 hrest
        exact ⟨opsC ++ pre, post, by rw [hsplit, hdec, List.append_assoc]⟩

/-- Grid cells visited before `(x0, y0)` in loop order. -/
def cellsBefore (x0 y0 : Nat) : List (Nat × Nat) :=
  cellOrder.takeWhile (fun c => c != (x0, y0))

/-- Grid cells visited after `(x0, y0)` in loop order. -/
def cellsAfter (x0 y0 : Nat) : List (Nat × Nat) :=
  (cellOrder.dropWhile (fun c => c != (x0, y0))).tail

/-- Helper: splitting the loop order around one cell.  The cells below and to
the right of `(x0, y0)` are visited after it; all cells are in bounds. -/
lemma cellOrder_split (x0 y0 : Nat) (hx : x0 < 8) (hy : y0 < 8) :
    cellOrder = cellsBefore x0 y0 ++ (x0, y0) :: cellsAfter x0 y0
    ∧ (x0, y0) ∉ cellsBefore x0 y0
    ∧ (x0, y0) ∉ cellsAfter x0 y0
    ∧ (∀ c ∈ cellsBefore x0 y0, c.1 < 8 ∧ c.2 < 8)
    ∧ (∀ c ∈ cellsAfter x0 y0, c.1 < 8 ∧ c.2 < 8)
    ∧ (y0 < 7 → (x0, y0 + 1) ∈ cellsAfter x0 y0)
    ∧ (x0 < 7 → (x0 + 1, y0) ∈ cellsAfter x0 y0) := by
  interval_cases x0 <;> interval_cases y0 <;> decide

/-- Helper: a successful render pins down a successful cell loop. -/
lemma boardRender_isOk_inv (f : FenToImageInst) (hs : List Nat)
    (h : (FenToImageInst.render f hs).isOk = true) :
    ∃ ops cache2, render_cells f hs cellOrder f.glyphCache = .ok (ops, cache2) := by
  unfold FenToImageInst.render at h
  cases hr : render_cells f hs cellOrder f.glyphCache with
  | error e =>
      rw [hr] at h
      simp [Except.isOk, Except.toBool] at h
  | ok v => exact ⟨v.1, v.2, rfl⟩

/-- Helper: the pixels of a successful render are the fold of the emitted
operations over the black canvas. -/
lemma boardRender_px (f : FenToImageInst) (hs : List Nat) (ops : List Op)
    (cache2 : List (Char × Img))
    (hr : render_cells f hs cellOrder f.glyphCache = .ok (ops, cache2))
    (p : Nat × Nat) :
    (exGetD (FenToImageInst.render f hs) dummyImage).px p
      = applyOps f.orc ops (fun _ => (0, 0, 0)) p := by
  unfold FenToImageInst.render
  rw [hr]
  simp [exGetD]

/-- Claim C9: highlighting a single square is a pure overlay.  For any board,
configuration and drawing oracle, a render with no highlights and a render
with exactly the square at cell (x0, y0) highlighted agree on every canvas
pixel outside that cell's square_size by square_size box.  (The cell's
background rectangle also paints the one-pixel PIL overhang at its right and
bottom edges, but the loop repaints those pixels identically via the
neighboring cells' backgrounds, which come later in loop order.) -/
theorem claim_C9 (f : FenToImageInst) (x0 y0 : Nat) (hx0 : x0 < 8) (hy0 : y0 < 8)
    (hsz : 0 < f.square_size)
    (h1 : (FenToImageInst.render f []).isOk = true)
    (h2 : (FenToImageInst.render f [get_square_at x0 y0]).isOk = true)
    (p : Nat × Nat) (hpx : p.1 < 8 * f.square_size) (hpy : p.2 < 8 * f.square_size)
    (hout : ¬(x0 * f.square_size ≤ p.1 ∧ p.1 < x0 * f.square_size + f.square_size
            ∧ y0 * f.square_size ≤ p.2 ∧ p.2 < y0 * f.square_size + f.square_size)) :
    (exGetD (FenToImageInst.render f []) dummyImage).px p
      = (exGetD (FenToImageInst.render f [get_square_at x0 y0]) dummyImage).px p := by
  obtain ⟨ops0, cch0, hr0⟩ := boardRender_isOk_inv f [] h1
  obtain ⟨ops1, cch1, hr1⟩ := boardRender_isOk_inv f [get_square_at x0 y0] h2
  rw [boardRender_px f [] ops0 cch0 hr0 p,
      boardRender_px f [get_square_at x0 y0] ops1 cch1 hr1 p]
  obtain ⟨hsplitord, hnb, hna, hbb, hba, hcovD, hcovR⟩ := cellOrder_split x0 y0 hx0 hy0
  rw [hsplitord] at hr0 hr1
  obtain ⟨opsA0, cacheM0, opsR0, hA0, hR0, hops0⟩ :=
    render_cells_append_inv f [] (cellsBefore x0 y0) ((x0, y0) :: cellsAfter x0 y0)
      f.glyphCache ops0 cch0 hr0
  obtain ⟨opsA1, cacheM1, opsR1, hA1, hR1, hops1⟩ :=
    render_cells_append_inv f [get_square_at x0 y0] (cellsBefore x0 y0)
      ((x0, y0) :: cellsAfter x0 y0) f.glyphCache ops1 cch1 hr1
  rw [render_cells_hs_eq f x0 y0 hx0 hy0 (cellsBefore x0 y0) hbb hnb f.glyphCache,
      hA0] at hA1
  obtain ⟨hAops, hAcache⟩ := exceptPairInv hA1
  subst hAops
  subst hAcache
  obtain ⟨opsC0, cacheP0, opsB0, hc0, hb0, hsp0⟩ :=
    render_cells_cons_inv f [] x0 y0 (cellsAfter x0 y0) cacheM0 opsR0 cch0 hR0
  obtain ⟨opsC1, cacheP1, opsB1, hc1, hb1, hsp1⟩ :=
    render_cells_cons_inv f [get_square_at x0 y0] x0 y0 (cellsAfter x0 y0)
      cacheM0 opsR1 cch1 hR1
  obtain ⟨pOps0, hp0, hshape0⟩ := render_cell_inv f [] x0 y0 cacheM0 opsC0 cacheP0 hc0
  obtain ⟨pOps1, hp1, hshape1⟩ :=
    render_cell_inv f [get_square_at x0 y0] x0 y0 cacheM0 opsC1 cacheP1 hc1
  obtain ⟨hpe, hce⟩ := exceptPairInv (hp0.symm.trans hp1)
  subst hpe
  subst hce
  rw [render_cells_hs_eq f x0 y0 hx0 hy0 (cellsAfter x0 y0) hba hna cacheP0,
      hb0] at hb1
  obtain ⟨hBops, hBcache⟩ := exceptPairInv hb1
  subst hBops
  subst hBcache
  rw [hops0, hops1, hsp0, hsp1, hshape0, hshape1]
  unfold applyOps
  rw [List.cons_append, List.cons_append, List.foldl_append, List.foldl_append,
      List.foldl_cons, List.foldl_cons]
  by_cases hin : x0 * f.square_size ≤ p.1 ∧ p.1 ≤ x0 * f.square_size + f.square_size
      ∧ y0 * f.square_size ≤ p.2 ∧ p.2 ≤ y0 * f.square_size + f.square_size
  · have hspill : p.1 = x0 * f.square_size + f.square_size
        ∨ p.2 = y0 * f.square_size + f.square_size := by omega
    rcases hspill with hsp | hsp
    · -- right spill column: repainted by the background of cell (x0 + 1, y0)
      have hmul : (x0 + 1) * f.square_size = x0 * f.square_size + f.square_size :=
        Nat.succ_mul x0 f.square_size
      have hx7 : x0 < 7 := by
        have hlt : (x0 + 1) * f.square_size < 8 * f.square_size := by omega
        have := lt_of_mul_lt_mul_right hlt (Nat.zero_le f.square_size)
        omega
      obtain ⟨pre, post, hdec⟩ := render_cells_bg_mem f [] (cellsAfter x0 y0)
        cacheP0 opsB0 cch0 (x0 + 1) y0 (hcovR hx7) hb0
      have hcov : (x0 + 1) * f.square_size ≤ p.1
          ∧ p.1 ≤ (x0 + 1) * f.square_size + f.square_size
          ∧ y0 * f.square_size ≤ p.2 ∧ p.2 ≤ y0 * f.square_size + f.square_size := by
        omega
      have hconst : ∀ v w,
          Op.apply f.orc (render_square_background f (x0 + 1) y0 []) p v
            = Op.apply f.orc (render_square_background f (x0 + 1) y0 []) p w := by
        intro v w
        rw [render_square_background_eq,
            fillRect_apply_in f.orc _ _ _ _ _ p hcov v,
            fillRect_apply_in f.orc _ _ _ _ _ p hcov w]
      exact foldl_ops_eq_of_const_mem f.orc p _
        (((if f.config.text.enabled then render_square_location f x0 y0 else [])
          ++ pOps0) ++ pre) post (render_square_background f (x0 + 1) y0 [])
        (by rw [hdec, ← List.append_assoc]) hconst _ _
    · -- bottom spill row: repainted by the background of cell (x0, y0 + 1)
      have hmul : (y0 + 1) * f.square_size = y0 * f.square_size + f.square_size :=
        Nat.succ_mul y0 f.square_size
      have hy7 : y0 < 7 := by
        have hlt : (y0 + 1) * f.square_size < 8 * f.square_size := by omega
        have := lt_of_mul_lt_mul_right hlt (Nat.zero_le f.square_size)
        omega
      obtain ⟨pre, post, hdec⟩ := render_cells_bg_mem f [] (cellsAfter x0 y0)
        cacheP0 opsB0 cch0 x0 (y0 + 1) (hcovD hy7) hb0
      have hcov : x0 * f.square_size ≤ p.1
          ∧ p.1 ≤ x0 * f.square_size + f.square_size
          ∧ (y0 + 1) * f.square_size ≤ p.2
          ∧ p.2 ≤ (y0 + 1) * f.square_size + f.square_size := by
        omega
      have hconst : ∀ v w,
          Op.apply f.orc (render_square_background f x0 (y0 + 1) []) p v
            = Op.apply f.orc (render_square_background f x0 (y0 + 1) []) p w := by
        intro v w
        rw [render_square_background_eq,
            fillRect_apply_in f.orc _ _ _ _ _ p hcov v,
            fillRect_apply_in f.orc _ _ _ _ _ p hcov w]
      exact foldl_ops_eq_of_const_mem f.orc p _
        (((if f.config.text.enabled then render_square_location f x0 y0 else [])
          ++ pOps0) ++ pre) post (render_square_background f x0 (y0 + 1) [])
        (by rw [hdec, ← List.append_assoc]) hconst _ _
  · -- the pixel is outside even the inclusive rectangle: both fills skip it
    have hb0e : ∀ v, Op.apply f.orc (render_square_background f x0 y0 []) p v = v := by
      intro v
      rw [render_square_background_eq]
      exact fillRect_apply_out f.orc _ _ _ _ _ p hin v
    have hb1e : ∀ v,
        Op.apply f.orc (render_square_background f x0 y0 [get_square_at x0 y0]) p v
          = v := by
      intro v
      rw [render_square_background_eq]
      exact fillRect_apply_out f.orc _ _ _ _ _ p hin v
    rw [hb0e, hb1e]

/-- Concrete instance of `claim_C9`: highlighting a8 does not change the pixel
at (200, 5) for the default empty-board renderer. -/
theorem claim_C9_witness :
    (exGetD (FenToImageInst.render fEmpty []) dummyImage).px (200, 5)
      = (exGetD (FenToImageInst.render fEmpty [get_square_at 0 0]) dummyImage).px
          (200, 5) :=
  claim_C9 fEmpty 0 0 (by decide) (by decide) (by decide) (by decide) (by decide)
    (200, 5) (by decide) (by decide) (by decide)
